import Mathlib

/-!
# Transaction service: query handlers over a single-collection store

A shallow embedding of `Backend/server.js` and `Backend/models/Transaction.js`.

* The record collection is a `List Record` in store (natural) order.
* A store query is represented by its meaning: a filter is a predicate on
  records, or `none` when the store rejects the expression.
* A handler returns the store operations it issued together with its response.
* Numbers are exact: prices are rationals, `parseInt` results are integers
  (binary floating-point rounding is not modelled).
-/

namespace Roxiler

/-! ## Data model (`models/Transaction.js`) -/

/-- Calendar date-time (UTC) of a sale; `month` is the month number 1..12. -/
structure Date where
  year : Int
  month : Nat
  day : Nat
  millisOfDay : Nat
  deriving DecidableEq, Repr

/-- Transaction document as declared by `transactionSchema`. -/
structure Record where
  id : String
  title : String
  price : ℚ
  description : String
  category : String
  image : String
  sold : Bool
  dateOfSale : Date
  deriving DecidableEq, Repr

/-- Record collection, in store order. -/
abbrev Store := List Record

/-! ## JavaScript values read from `monthMap` -/

/-- Value of a property read `monthMap[key]`. -/
inductive JSValue where
  | undefined
  | number (n : Nat)
  | function
  | object
  deriving DecidableEq, Repr

/-- Own properties of the object literal `monthMap`. -/
def monthMap : List (String × Nat) :=
  [("January", 1), ("February", 2), ("March", 3), ("April", 4), ("May", 5), ("June", 6),
   ("July", 7), ("August", 8), ("September", 9), ("October", 10), ("November", 11),
   ("December", 12)]

/-- Names of the methods every object literal inherits from `Object.prototype`. -/
def objectPrototypeMethods : List String :=
  ["constructor", "hasOwnProperty", "isPrototypeOf", "propertyIsEnumerable",
   "toLocaleString", "toString", "valueOf",
   "__defineGetter__", "__defineSetter__", "__lookupGetter__", "__lookupSetter__"]

/-- Property read `monthMap[key]`: own properties first, then the prototype chain
(`monthMap` is a plain object literal, so its prototype is `Object.prototype`;
`__proto__` reads that prototype object itself). -/
def monthMapGet (key : String) : JSValue :=
  match monthMap.lookup key with
  | some n => .number n
  | none =>
    if key ∈ objectPrototypeMethods then .function
    else if key = "__proto__" then .object
    else .undefined

/-- JavaScript truthiness of a value read from `monthMap`. -/
def JSValue.truthy : JSValue → Bool
  | .undefined => false
  | .number n => n != 0
  | .function => true
  | .object => true

/-- Truthiness of the `month` query parameter: absent and `''` are falsy. -/
def monthTruthy : Option String → Bool
  | none => false
  | some s => s != ""

/-! ## Store operations -/

/-- Meaning of a query filter: a predicate on records, or `none` when the store
rejects the filter expression. -/
abbrev Filter := Option (Record → Bool)

/-- Filter `{}`. -/
def Filter.all : Filter := some (fun _ => true)

/-- Expression `{ $eq: [{ $month: '$dateOfSale' }, operand] }` as the store evaluates it
when it arrives unchanged, as in an aggregation pipeline.  A number is compared with
the month of the date; an object is a value no month number equals; a function is
not serialised, which leaves `$eq` with one argument, and the store rejects the
expression. -/
def monthEq : JSValue → Filter
  | .number n => some (fun r => r.dateOfSale.month == n)
  | .object => some (fun _ => false)
  | .undefined => some (fun _ => false)
  | .function => none

/-- The cast the model layer applies to the operand compared with `$month` inside the
`$expr` of a `countDocuments` filter: a number (or a missing value) passes, a function
or an object cannot be cast to a number and the operation fails. -/
def castMonthOperand : JSValue → Option JSValue
  | .number n => some (.number n)
  | .undefined => some .undefined
  | .function => none
  | .object => none

/-- Expression `{ $eq: [{ $month: '$dateOfSale' }, operand] }` inside a `countDocuments`
filter: the operand is cast first. -/
def monthEqCast (operand : JSValue) : Filter :=
  match castMonthOperand operand with
  | some v => monthEq v
  | none => none

/-- Expression `{ $eq: ['$sold', b] }`. -/
def soldEq (b : Bool) : Filter := some (fun r => r.sold == b)

/-- Expression `{ $gte: ['$price', min] }`. -/
def priceGte (min : ℚ) : Filter := some (fun r => decide (min ≤ r.price))

/-- Expression `{ $lte: ['$price', max] }`; `none` is `Infinity`. -/
def priceLte : Option ℚ → Filter
  | some max => some (fun r => decide (r.price ≤ max))
  | none => some (fun _ => true)

/-- Conjunction of two expressions: rejected as soon as one of them is. -/
def Filter.and : Filter → Filter → Filter
  | some p, some q => some (fun r => p r && q r)
  | _, _ => none

/-- Expression `{ $and: [...] }`. -/
def exprAnd : List Filter → Filter
  | [] => some (fun _ => true)
  | f :: fs => f.and (exprAnd fs)

/-- Documents flowing through an aggregation pipeline. -/
inductive Doc where
  | record (r : Record)
  | group (totalAmount : ℚ)
  deriving DecidableEq, Repr

/-- Pipeline stages used by the handlers.  `$skip` and `$limit` carry the
JavaScript number computed by the handler (`none` is `NaN`). -/
inductive Stage where
  | matchExpr (f : Filter)
  | groupSumPrice
  | skip (n : Option Int)
  | limit (n : Option Int)

/-- The store parses all stages before running any: a rejected `$match`
expression, a `$skip` that is not an integer in `[0, 2^63)`, or a `$limit`
that is not an integer in `[1, 2^63)` fails the whole operation. -/
def Stage.valid : Stage → Bool
  | .matchExpr f => f.isSome
  | .groupSumPrice => true
  | .skip n => match n with
    | some k => decide (0 ≤ k) && decide (k < 2 ^ 63)
    | none => false
  | .limit n => match n with
    | some k => decide (1 ≤ k) && decide (k < 2 ^ 63)
    | none => false

/-- Field `$price` of a pipeline document (absent on a group result). -/
def Doc.priceOr0 : Doc → ℚ
  | .record r => r.price
  | .group _ => 0

/-- Runs one stage over the documents coming from the previous one. -/
def Stage.run : Stage → List Doc → List Doc
  | .matchExpr f, docs =>
    docs.filter (fun d => match d, f with
      | .record r, some p => p r
      | _, _ => false)
  | .groupSumPrice, docs =>
    if docs.isEmpty then [] else [.group (docs.map Doc.priceOr0).sum]
  | .skip n, docs => docs.drop (n.getD 0).toNat
  | .limit n, docs => docs.take (n.getD 0).toNat

/-- `Transaction.aggregate(pipeline)`; `none` when the operation fails. -/
def aggregate (store : Store) (pipeline : List Stage) : Option (List Doc) :=
  if pipeline.all Stage.valid then
    some (pipeline.foldl (fun docs st => st.run docs) (store.map Doc.record))
  else none

/-- `Transaction.countDocuments(filter)`; `none` when the operation fails. -/
def countDocuments (store : Store) (filter : Filter) : Option Nat :=
  filter.map (fun p => (store.filter p).length)

/-- Store operations a handler can issue. -/
inductive StoreCall where
  | aggregate
  | countDocuments
  deriving DecidableEq, Repr

/-- What a handler did: the store operations it issued, in order, and its response. -/
structure Handled (α : Type) where
  calls : List StoreCall
  response : α

/-! ## `GET /statistics` -/

/-- Responses of the statistics route. -/
inductive StatisticsResponse where
  | ok (totalSaleAmount : ℚ) (soldItemsCount notSoldItemsCount : Nat)
  | badRequest
  | failure
  deriving DecidableEq, Repr

/-- The expression `totalSaleAmount[0]?.totalAmount || 0`. -/
def totalAmountOr0 (result : List Doc) : ℚ :=
  match result.head? with
  | some (.group t) => if t = 0 then 0 else t
  | _ => 0

/-- Handler of `GET /statistics`. -/
def statistics (store : Store) (month : Option String) : Handled StatisticsResponse :=
  if !monthTruthy month || !(monthMapGet (month.getD "")).truthy then
    ⟨[], .badRequest⟩
  else
    let monthNumber := monthMapGet (month.getD "")
    let totals := aggregate store [.matchExpr (monthEq monthNumber), .groupSumPrice]
    let sold := countDocuments store (exprAnd [monthEqCast monthNumber, soldEq true])
    let notSold := countDocuments store (exprAnd [monthEqCast monthNumber, soldEq false])
    ⟨[.aggregate, .countDocuments, .countDocuments],
      match totals, sold, notSold with
      | some t, some s, some n => .ok (totalAmountOr0 t) s n
      | _, _, _ => .failure⟩

/-! ## `GET /price-range-chart` -/

/-- Bucket `{ min, max }`; `max = none` is `Infinity`. -/
structure PriceRange where
  min : ℚ
  max : Option ℚ
  deriving DecidableEq, Repr

/-- The table `priceRanges`. -/
def priceRanges : List PriceRange :=
  [⟨0, some 100⟩, ⟨101, some 200⟩, ⟨201, some 300⟩,
   ⟨301, some 400⟩, ⟨401, some 500⟩, ⟨501, some 600⟩,
   ⟨601, some 700⟩, ⟨701, some 800⟩, ⟨801, some 900⟩,
   ⟨901, none⟩]

/-- Entry `{ range, count }` of the chart. -/
structure PriceRangeEntry where
  range : PriceRange
  count : Nat
  deriving DecidableEq, Repr

/-- Responses of the price-range-chart route. -/
inductive ChartResponse where
  | ok (data : List PriceRangeEntry)
  | badRequest
  | failure
  deriving DecidableEq, Repr

/-- Result of an operation put in front of the results of the others, when all succeeded. -/
def consResult {α : Type} : Option α → Option (List α) → Option (List α)
  | some a, some as => some (a :: as)
  | _, _ => none

/-- `Promise.all`: the results in order, or failure when one operation failed. -/
def promiseAll {α : Type} : List (Option α) → Option (List α)
  | [] => some []
  | x :: xs => consResult x (promiseAll xs)

/-- The filter counted for one bucket. -/
def rangeFilter (monthNumber : JSValue) (range : PriceRange) : Filter :=
  exprAnd [monthEqCast monthNumber, priceGte range.min, priceLte range.max]

/-- Handler of `GET /price-range-chart`. -/
def priceRangeChart (store : Store) (month : Option String) : Handled ChartResponse :=
  if !monthTruthy month || !(monthMapGet (month.getD "")).truthy then
    ⟨[], .badRequest⟩
  else
    let monthNumber := monthMapGet (month.getD "")
    let priceRangeData := promiseAll (priceRanges.map (fun range =>
      (countDocuments store (rangeFilter monthNumber range)).map
        (fun count => PriceRangeEntry.mk range count)))
    ⟨priceRanges.map (fun _ => StoreCall.countDocuments),
      match priceRangeData with
      | some data => .ok data
      | none => .failure⟩

/-! ## JavaScript number parsing -/

/-- White space skipped by `parseInt` and `parseFloat` before the number. -/
def isStrWhiteSpace (c : Char) : Bool :=
  c.toNat ∈ [0x9, 0xA, 0xB, 0xC, 0xD, 0x20, 0xA0, 0x1680, 0x2028, 0x2029, 0x202F, 0x205F,
    0x3000, 0xFEFF] || (0x2000 ≤ c.toNat && c.toNat ≤ 0x200A)

/-- Value of a character as a digit, for radices up to 36. -/
def digitValue (c : Char) : Nat :=
  if c.isDigit then c.toNat - 48
  else if c.isLower then c.toNat - 87
  else if c.isUpper then c.toNat - 55
  else 36

/-- Value of a digit string in the given radix. -/
def digitsValue (radix : Nat) (ds : List Char) : Nat :=
  ds.foldl (fun acc c => acc * radix + digitValue c) 0

/-- Longest leading run of digits of the radix, as a number; `none` when it is empty. -/
def leadingInt (radix : Nat) (cs : List Char) : Option Nat :=
  let ds := cs.takeWhile (fun c => decide (digitValue c < radix))
  if ds.isEmpty then none else some (digitsValue radix ds)

/-- Splits an optional leading sign off: `true` for `-`. -/
def splitSign : List Char → Bool × List Char
  | '-' :: cs => (true, cs)
  | '+' :: cs => (false, cs)
  | cs => (false, cs)

/-- Digits after an optional `0x`/`0X` marker, with the radix they are read in. -/
def splitRadix : List Char → Nat × List Char
  | '0' :: 'x' :: cs => (16, cs)
  | '0' :: 'X' :: cs => (16, cs)
  | cs => (10, cs)

/-- `parseInt(s)` with no radix argument; `none` is `NaN`. -/
def parseInt (s : String) : Option Int :=
  let (negative, unsigned) := splitSign (s.toList.dropWhile isStrWhiteSpace)
  let (radix, digits) := splitRadix unsigned
  (leadingInt radix digits).map (fun n => if negative then -(n : Int) else (n : Int))

/-- JavaScript numbers produced by `parseFloat`. -/
inductive JSNumber where
  | nan
  | infinity (negative : Bool)
  | finite (q : ℚ)
  deriving DecidableEq, Repr

/-- `isNaN`. -/
def JSNumber.isNaN : JSNumber → Bool
  | .nan => true
  | _ => false

/-- Exponent part `e`/`E`, optional sign, digits; `0` when there is no well-formed one. -/
def parseExponent : List Char → Int
  | [] => 0
  | c :: cs =>
    if c = 'e' ∨ c = 'E' then
      let (negative, rest) := splitSign cs
      match leadingInt 10 rest with
      | some n => if negative then -(n : Int) else (n : Int)
      | none => 0
    else 0

/-- Longest leading unsigned decimal literal (`Infinity`, `d.d e±d`, `.d e±d`, `d e±d`). -/
def parseUnsignedDecimal (cs : List Char) : JSNumber :=
  if "Infinity".toList.isPrefixOf cs then .infinity false
  else
    let intDigits := cs.takeWhile Char.isDigit
    match cs.dropWhile Char.isDigit with
    | '.' :: rest =>
      let fracDigits := rest.takeWhile Char.isDigit
      if intDigits.isEmpty && fracDigits.isEmpty then .nan
      else .finite ((digitsValue 10 (intDigits ++ fracDigits) : ℚ)
        * (10 : ℚ) ^ (parseExponent (rest.dropWhile Char.isDigit) - (fracDigits.length : Int)))
    | rest =>
      if intDigits.isEmpty then .nan
      else .finite ((digitsValue 10 intDigits : ℚ) * (10 : ℚ) ^ parseExponent rest)

/-- Negation of a JavaScript number. -/
def JSNumber.neg : JSNumber → JSNumber
  | .nan => .nan
  | .infinity b => .infinity (!b)
  | .finite q => .finite (-q)

/-- `parseFloat(s)`. -/
def parseFloat (s : String) : JSNumber :=
  let (negative, unsigned) := splitSign (s.toList.dropWhile isStrWhiteSpace)
  let n := parseUnsignedDecimal unsigned
  if negative then n.neg else n

/-! ## `GET /transactions` -/

/-- Regular-expression services the listing relies on: whether
`new RegExp(source, 'i')` returns rather than throws, and whether the store finds
a match of that case-insensitive expression in a string field. -/
structure RegExpEngine where
  accepts : String → Bool
  test : String → String → Bool

/-- Clause `{ price: priceSearch }`: equality with the stored number. -/
def priceClause : JSNumber → Record → Bool
  | .finite q, r => decide (r.price = q)
  | _, _ => false

/-- The members of `query.$or` for a non-empty search. -/
def orClauses (E : RegExpEngine) (search : String) : List (Record → Bool) :=
  let priceSearch := parseFloat search
  [fun r => E.test search r.title, fun r => E.test search r.description]
    ++ (if !priceSearch.isNaN then [priceClause priceSearch] else [])

/-- The object `query` built from `search`; `none` when the `RegExp` constructor throws. -/
def searchQuery (E : RegExpEngine) (search : String) : Option Filter :=
  if search != "" then
    if E.accepts search then some (some (fun r => (orClauses E search).any (fun c => c r)))
    else none
  else some Filter.all

/-- Query parameters of the listing route; `none` is an absent parameter. -/
structure ListingRequest where
  search : Option String
  page : Option String
  perPage : Option String
  month : Option String
  deriving DecidableEq, Repr

/-- Responses of the listing route. -/
inductive ListingResponse where
  | ok (transactions : List Doc) (total : Nat) (page perPage : Option Int)
  | failure
  deriving DecidableEq, Repr

/-- `parseInt(page)`, the parameter defaulting to the number `1`. -/
def ListingRequest.pageNumber (req : ListingRequest) : Option Int :=
  parseInt (req.page.getD "1")

/-- `parseInt(perPage)`, the parameter defaulting to the number `10`. -/
def ListingRequest.perPageNumber (req : ListingRequest) : Option Int :=
  parseInt (req.perPage.getD "10")

/-- `(parseInt(page) - 1) * parseInt(perPage)`; `NaN` propagates. -/
def skipCount (page perPage : Option Int) : Option Int :=
  match page, perPage with
  | some p, some n => some ((p - 1) * n)
  | _, _ => none

/-- The array `aggregationPipeline`. -/
def aggregationPipeline (req : ListingRequest) : List Stage :=
  (if monthTruthy req.month && (monthMapGet (req.month.getD "")).truthy then
    [Stage.matchExpr (monthEq (monthMapGet (req.month.getD "")))]
  else [])
  ++ [.skip (skipCount req.pageNumber req.perPageNumber), .limit req.perPageNumber]

/-- Handler of `GET /transactions`. -/
def transactions (E : RegExpEngine) (store : Store) (req : ListingRequest) :
    Handled ListingResponse :=
  match searchQuery E (req.search.getD "") with
  | none => ⟨[], .failure⟩
  | some query =>
    ⟨[.aggregate, .countDocuments],
      match aggregate store (aggregationPipeline req), countDocuments store query with
      | some docs, some total => .ok docs total req.pageNumber req.perPageNumber
      | _, _ => .failure⟩

/-! ## A regular-expression engine for literal patterns -/

/-- Characters with a syntactic role in a pattern. -/
def isSyntaxChar (c : Char) : Bool :=
  c ∈ ['^', '$', '\\', '.', '*', '+', '?', '(', ')', '[', ']', '{', '}', '|']

/-- Pattern items of the modelled fragment. -/
inductive Atom where
  | char (c : Char)
  | anyChar
  deriving DecidableEq, Repr

/-- Patterns of the fragment: characters standing for themselves and `.`;
the NUL character cannot be sent to the store inside a pattern. -/
def inFragment (c : Char) : Bool :=
  c = '.' || (!isSyntaxChar c && c != Char.ofNat 0)

/-- Reads a pattern of the fragment. -/
def atomsOf (source : List Char) : List Atom :=
  source.map (fun c => if c = '.' then Atom.anyChar else Atom.char c)

/-- One pattern item against one character, ignoring the case of ASCII letters;
`.` matches every character but the line feed. -/
def Atom.matchesChar : Atom → Char → Bool
  | .char c, d => c.toLower == d.toLower
  | .anyChar, d => d != '\n'

/-- The items match at the start of the subject. -/
def matchHere : List Atom → List Char → Bool
  | [], _ => true
  | _ :: _, [] => false
  | a :: as, d :: ds => a.matchesChar d && matchHere as ds

/-- The items match somewhere in the subject. -/
def matchAnywhere (atoms : List Atom) : List Char → Bool
  | [] => matchHere atoms []
  | d :: ds => matchHere atoms (d :: ds) || matchAnywhere atoms ds

/-- Engine for the fragment.  Patterns using any other pattern syntax are outside
what it models and it does not accept them. -/
def fragmentEngine : RegExpEngine where
  accepts source := source.toList.all inFragment
  test source subject := matchAnywhere (atomsOf source.toList) subject.toList

/-! ## `GET /initialize-database` -/

/-- Responses of the seeding route. -/
inductive InitResponse where
  | initialized
  | alreadyInitialized
  | failure
  deriving DecidableEq, Repr

/-- Effects of the seeding route besides the initial count. -/
inductive InitEffect where
  | fetch
  | insertMany (docs : List Record)
  deriving DecidableEq, Repr

/-- Outcome of the seeding route: the collection afterwards, what was done, the response. -/
structure InitResult where
  store : Store
  effects : List InitEffect
  response : InitResponse
  deriving DecidableEq, Repr

/-- Handler of `GET /initialize-database`.  `remote` is the dataset the fixed URL
serves, `none` when fetching or decoding it fails. -/
def initializeDatabase (store : Store) (remote : Option (List Record)) : InitResult :=
  match countDocuments store Filter.all with
  | some existingTransactions =>
    if existingTransactions = 0 then
      match remote with
      | some transactions =>
        ⟨store ++ transactions, [.fetch, .insertMany transactions], .initialized⟩
      | none => ⟨store, [.fetch], .failure⟩
    else ⟨store, [], .alreadyInitialized⟩
  | none => ⟨store, [], .failure⟩

/-! ## Specification vocabulary -/

/-- Month names in calendar order. -/
def monthNames : List String :=
  ["January", "February", "March", "April", "May", "June",
   "July", "August", "September", "October", "November", "December"]

/-- Records whose date of sale falls in the calendar month called `name`
(the month at position `List.indexOf name monthNames`, counted from one), in any year. -/
def inMonth (name : String) (r : Record) : Bool :=
  r.dateOfSale.month == monthNames.indexOf name + 1

/-- Number of records of the month `name` whose price lies in `[lo, hi]`. -/
def countBetween (store : Store) (name : String) (lo hi : ℚ) : Nat :=
  (store.filter (fun r => inMonth name r && decide (lo ≤ r.price ∧ r.price ≤ hi))).length

/-- Number of records of the month `name` whose price is at least `lo`. -/
def countFrom (store : Store) (name : String) (lo : ℚ) : Nat :=
  (store.filter (fun r => inMonth name r && decide (lo ≤ r.price))).length

/-- Sum of the counts of a chart; `0` when the response carries no chart. -/
def chartTotal : ChartResponse → Nat
  | .ok data => (data.map (fun e => e.count)).sum
  | _ => 0

/-- Lower ends of the open intervals `(100, 101)`, ..., `(900, 901)` that lie between
consecutive buckets. -/
def gapStarts : List ℚ := [100, 200, 300, 400, 500, 600, 700, 800, 900]

/-- Prices some bucket can hold: not negative and in none of the open intervals
`(100 k, 100 k + 1)`, `k = 1..9`. -/
def coveredPrice (p : ℚ) : Bool :=
  decide (0 ≤ p) && !gapStarts.any (fun g => decide (g < p) && decide (p < g + 1))

/-- A record satisfies the listing's search filter when counting the documents of the
one-record collection with the `query` built from `search` gives one. -/
def satisfiesSearch (E : RegExpEngine) (search : String) (r : Record) : Bool :=
  match searchQuery E search with
  | some query => countDocuments [r] query == some 1
  | none => false

/-- Records matching the search as the route describes it: every record for the empty
search, otherwise the records whose title or description the expression matches or
whose price equals the number read from the search. -/
def matchesSearch (E : RegExpEngine) (search : String) (r : Record) : Bool :=
  if search = "" then true
  else E.test search r.title || E.test search r.description
    || priceClause (parseFloat search) r

/-- `s` occurs in `t` when the case of ASCII letters is ignored. -/
abbrev containsIgnoringCase (s t : String) : Prop :=
  (s.toList.map Char.toLower) <:+: (t.toList.map Char.toLower)

/-- Characters that stand for themselves in a pattern. -/
def isLiteralChar (c : Char) : Bool :=
  !isSyntaxChar c && c != Char.ofNat 0

/-- The page of `records` for page number `page` and page size `perPage`. -/
def pageOf (records : List Record) (page perPage : Int) : List Doc :=
  ((records.drop ((page - 1) * perPage).toNat).take perPage.toNat).map Doc.record

/-! ## Example data -/

/-- Example record with the given id, title, price, sold flag and month of sale. -/
def sampleRecord (id title : String) (price : ℚ) (sold : Bool) (month : Nat) : Record :=
  { id := id, title := title, price := price, description := "", category := "sample",
    image := "", sold := sold, dateOfSale := ⟨2022, month, 15, 0⟩ }

/-- Example collection: three January sales and two March sales. -/
def sampleStore : Store :=
  [sampleRecord "1" "Blue Mug" 50 true 1,
   sampleRecord "2" "Desk lamp" 150 false 1,
   sampleRecord "3" "Laptop" 950 true 1,
   sampleRecord "4" "Mouse pad" 25 true 3,
   sampleRecord "5" "Backpack" (201 / 2) false 3]

/-! ## Shared lemmas -/

theorem monthMapGet_of_mem (name : String) (h : name ∈ monthNames) :
    monthMapGet name = .number (monthNames.indexOf name + 1) ∧ name ≠ "" := by
  simp only [monthNames, List.mem_cons, List.mem_singleton, List.not_mem_nil, or_false] at h
  rcases h with rfl | rfl | rfl | rfl | rfl | rfl | rfl | rfl | rfl | rfl | rfl | rfl <;> decide

theorem matchExpr_run_records (p : Record → Bool) (store : Store) :
    (Stage.matchExpr (some p)).run (store.map Doc.record) = (store.filter p).map Doc.record := by
  induction store with
  | nil => rfl
  | cons r rs ih =>
    simp only [Stage.run, List.map_cons, List.filter_cons] at ih ⊢
    by_cases hp : p r = true <;> simp [hp, ih]

theorem map_priceOr0_records (rs : List Record) :
    (rs.map Doc.record).map Doc.priceOr0 = rs.map (fun r => r.price) := by
  simp [List.map_map, Function.comp_def, Doc.priceOr0]

theorem totalAmountOr0_group (p : Record → Bool) (store : Store) :
    totalAmountOr0 ((Stage.groupSumPrice).run ((Stage.matchExpr (some p)).run (store.map Doc.record)))
      = ((store.filter p).map (fun r => r.price)).sum := by
  rw [matchExpr_run_records]
  cases hf : store.filter p with
  | nil => simp [Stage.run, totalAmountOr0]
  | cons r rs =>
    have hs : ((List.map Doc.record (r :: rs)).map Doc.priceOr0).sum
        = ((r :: rs).map (fun r => r.price)).sum := by rw [map_priceOr0_records]
    simp only [Stage.run, List.map_cons, List.isEmpty_cons, Bool.false_eq_true, if_false,
      totalAmountOr0, List.head?_cons] at hs ⊢
    rw [hs]
    split_ifs with h0
    · exact h0.symm
    · rfl

theorem statistics_of_number (store : Store) (name : String) (n : Nat)
    (hne : name ≠ "") (hget : monthMapGet name = .number n) (hn : n ≠ 0) :
    statistics store (some name) =
      ⟨[.aggregate, .countDocuments, .countDocuments],
        .ok ((store.filter (fun r => r.dateOfSale.month == n)).map (fun r => r.price)).sum
          (store.filter (fun r => r.dateOfSale.month == n && r.sold == true)).length
          (store.filter (fun r => r.dateOfSale.month == n && r.sold == false)).length⟩ := by
  have h1 : monthTruthy (some name) = true := by simp [monthTruthy, hne]
  have h2 : (JSValue.number n).truthy = true := by simp [JSValue.truthy, hn]
  have h3 := totalAmountOr0_group (fun r => r.dateOfSale.month == n) store
  simp only [statistics, h1, Option.getD_some, hget, h2, Bool.not_true, Bool.or_self,
    Bool.false_eq_true, if_false, monthEq, aggregate, List.all_cons, List.all_nil, Stage.valid,
    Option.isSome_some, Bool.and_self, if_true, List.foldl_cons, List.foldl_nil,
    countDocuments, exprAnd, soldEq, Option.map_some', Bool.and_true, Filter.and, h3,
    monthEqCast, castMonthOperand]

/-! ## Statistics -/

/-- C1: for a recognized month name the statistics are the sum of `price` over the
records of that calendar month, the number of those with `sold = true` and the number
of those with `sold = false`; the total is the number `0` when no record is in the
month; three January records priced 50, 150, 950 and sold, unsold, sold give
1150, 2, 1. -/
theorem statistics_recognized_month (store : Store) (name : String)
    (h : name ∈ monthNames) :
    (statistics store (some name)).response =
        .ok ((store.filter (inMonth name)).map (fun r => r.price)).sum
          (store.filter (fun r => inMonth name r && r.sold)).length
          (store.filter (fun r => inMonth name r && !r.sold)).length
    ∧ (store.filter (inMonth name) = [] →
        (statistics store (some name)).response = .ok 0 0 0)
    ∧ (∀ (st : Store) (r1 r2 r3 : Record),
        st.filter (inMonth "January") = [r1, r2, r3] →
        r1.price = 50 → r2.price = 150 → r3.price = 950 →
        r1.sold = true → r2.sold = false → r3.sold = true →
        (statistics st (some "January")).response = .ok 1150 2 1) := by
  have key : ∀ (st : Store) (nm : String), nm ∈ monthNames →
      (statistics st (some nm)).response =
        .ok ((st.filter (inMonth nm)).map (fun r => r.price)).sum
          (st.filter (fun r => inMonth nm r && r.sold)).length
          (st.filter (fun r => inMonth nm r && !r.sold)).length := by
    intro st nm hnm
    obtain ⟨hget, hne⟩ := monthMapGet_of_mem nm hnm
    have e : inMonth nm = fun r => r.dateOfSale.month == monthNames.indexOf nm + 1 := rfl
    rw [statistics_of_number st nm _ hne hget (Nat.succ_ne_zero _), e]
    simp only [beq_true, beq_false]
  refine ⟨key store name h, ?_, ?_⟩
  · intro hnil
    rw [key store name h]
    have hno : ∀ r ∈ store, ¬ inMonth name r = true := List.filter_eq_nil_iff.1 hnil
    have h1 : store.filter (fun r => inMonth name r && r.sold) = [] :=
      List.filter_eq_nil_iff.2 (fun r hr => by simp [hno r hr])
    have h2 : store.filter (fun r => inMonth name r && !r.sold) = [] :=
      List.filter_eq_nil_iff.2 (fun r hr => by simp [hno r hr])
    simp [hnil, h1, h2]
  · intro st r1 r2 r3 hst p1 p2 p3 s1 s2 s3
    have split : ∀ q : Record → Bool,
        st.filter (fun r => inMonth "January" r && q r)
          = (st.filter (inMonth "January")).filter q := by
      intro q
      rw [List.filter_filter]
      exact List.filter_congr (fun r _ => Bool.and_comm _ _)
    rw [key st "January" (by decide), split (fun r => r.sold), split (fun r => !r.sold), hst]
    simp [List.filter, p1, p2, p3, s1, s2, s3]
    norm_num

theorem promiseAll_map_some {α β : Type} (f : α → β) (l : List α) :
    promiseAll (l.map (fun x => some (f x))) = some (l.map f) := by
  induction l with
  | nil => rfl
  | cons a as ih => simp [promiseAll, ih, consResult]

theorem priceRangeChart_of_number (store : Store) (name : String) (n : Nat)
    (hne : name ≠ "") (hget : monthMapGet name = .number n) (hn : n ≠ 0) :
    priceRangeChart store (some name) =
      ⟨priceRanges.map (fun _ => StoreCall.countDocuments),
        .ok (priceRanges.map (fun range => ⟨range, (store.filter (fun r =>
          r.dateOfSale.month == n && (decide (range.min ≤ r.price) &&
            (match range.max with
              | some max => decide (r.price ≤ max)
              | none => true)))).length⟩))⟩ := by
  have h1 : monthTruthy (some name) = true := by simp [monthTruthy, hne]
  have h2 : (JSValue.number n).truthy = true := by simp [JSValue.truthy, hn]
  have h3 : ∀ range : PriceRange,
      (countDocuments store (rangeFilter (.number n) range)).map
        (fun count => PriceRangeEntry.mk range count) =
      some ⟨range, (store.filter (fun r =>
          r.dateOfSale.month == n && (decide (range.min ≤ r.price) &&
            (match range.max with
              | some max => decide (r.price ≤ max)
              | none => true)))).length⟩ := by
    intro range
    rcases range with ⟨lo, _ | hi⟩ <;>
      simp [countDocuments, rangeFilter, exprAnd, monthEq, monthEqCast, castMonthOperand,
        priceGte, priceLte, Filter.and]
  simp only [priceRangeChart, h1, Option.getD_some, hget, h2, Bool.not_true, Bool.or_self,
    Bool.false_eq_true, if_false, h3, promiseAll_map_some]

/-- C2: for a recognized month name the chart has exactly the ten entries, in the
fixed order `[0,100]`, `[101,200]`, ..., `[801,900]`, `[901,∞)`, each with the number
of records of that month whose price lies between the bucket's bounds, inclusive. -/
theorem priceRangeChart_recognized_month (store : Store) (name : String)
    (h : name ∈ monthNames) :
    (priceRangeChart store (some name)).response = .ok
      [⟨⟨0, some 100⟩, countBetween store name 0 100⟩,
       ⟨⟨101, some 200⟩, countBetween store name 101 200⟩,
       ⟨⟨201, some 300⟩, countBetween store name 201 300⟩,
       ⟨⟨301, some 400⟩, countBetween store name 301 400⟩,
       ⟨⟨401, some 500⟩, countBetween store name 401 500⟩,
       ⟨⟨501, some 600⟩, countBetween store name 501 600⟩,
       ⟨⟨601, some 700⟩, countBetween store name 601 700⟩,
       ⟨⟨701, some 800⟩, countBetween store name 701 800⟩,
       ⟨⟨801, some 900⟩, countBetween store name 801 900⟩,
       ⟨⟨901, none⟩, countFrom store name 901⟩] := by
  obtain ⟨hget, hne⟩ := monthMapGet_of_mem name h
  rw [priceRangeChart_of_number store name _ hne hget (Nat.succ_ne_zero _)]
  simp only [priceRanges, List.map_cons, List.map_nil, countBetween, countFrom, inMonth,
    Bool.decide_and, Bool.and_true]

theorem le_true_of (a b : ℚ) (h : a ≤ b) : a ≤ b ↔ True := iff_true_intro h

theorem le_false_of (a b : ℚ) (h : b < a) : a ≤ b ↔ False := iff_false_intro (not_le.2 h)

theorem lt_true_of (a b : ℚ) (h : a < b) : a < b ↔ True := iff_true_intro h

theorem lt_false_of (a b : ℚ) (h : b ≤ a) : a < b ↔ False := iff_false_intro (not_lt.2 h)

set_option maxHeartbeats 4000000 in
/-- Number of buckets whose bounds hold the price `p`. -/
theorem price_hits (p : ℚ) :
    (priceRanges.map (fun range => if (decide (range.min ≤ p) &&
        (match range.max with
          | some max => decide (p ≤ max)
          | none => true)) = true then 1 else 0)).sum
      = if coveredPrice p = true then 1 else 0 := by
  simp only [priceRanges, List.map_cons, List.map_nil, List.sum_cons, List.sum_nil,
    coveredPrice, gapStarts, List.any_cons, List.any_nil, Bool.and_true, Bool.or_false]
  simp only [Bool.and_eq_true, decide_eq_true_eq, Bool.not_eq_true', Bool.or_eq_false_iff,
    Bool.and_eq_false_imp, decide_eq_false_iff_not, not_lt, Bool.or_eq_true,
    Bool.not_eq_eq_eq_not, Bool.not_true, Bool.decide_eq_true]
  rcases lt_or_le p 0 with h0 | h0
  · simp (disch := (by_contra hh; linarith)) only [le_true_of, le_false_of, lt_true_of,
      lt_false_of, and_true, true_and, and_false, false_and, if_true, if_false,
      true_implies, false_implies, add_zero, zero_add]
  rcases le_or_lt p 100 with h100 | h100
  · simp (disch := (by_contra hh; linarith)) only [le_true_of, le_false_of, lt_true_of,
      lt_false_of, and_true, true_and, and_false, false_and, if_true, if_false,
      true_implies, false_implies, add_zero, zero_add]
  clear h0
  rcases lt_or_le p 101 with g100 | g100
  · simp (disch := (by_contra hh; linarith)) only [le_true_of, le_false_of, lt_true_of,
      lt_false_of, and_true, true_and, and_false, false_and, if_true, if_false,
      true_implies, false_implies, add_zero, zero_add]
  clear h100
  rcases le_or_lt p 200 with h200 | h200
  · simp (disch := (by_contra hh; linarith)) only [le_true_of, le_false_of, lt_true_of,
      lt_false_of, and_true, true_and, and_false, false_and, if_true, if_false,
      true_implies, false_implies, add_zero, zero_add]
  clear g100
  rcases lt_or_le p 201 with g200 | g200
  · simp (disch := (by_contra hh; linarith)) only [le_true_of, le_false_of, lt_true_of,
      lt_false_of, and_true, true_and, and_false, false_and, if_true, if_false,
      true_implies, false_implies, add_zero, zero_add]
  clear h200
  rcases le_or_lt p 300 with h300 | h300
  · simp (disch := (by_contra hh; linarith)) only [le_true_of, le_false_of, lt_true_of,
      lt_false_of, and_true, true_and, and_false, false_and, if_true, if_false,
      true_implies, false_implies, add_zero, zero_add]
  clear g200
  rcases lt_or_le p 301 with g300 | g300
  · simp (disch := (by_contra hh; linarith)) only [le_true_of, le_false_of, lt_true_of,
      lt_false_of, and_true, true_and, and_false, false_and, if_true, if_false,
      true_implies, false_implies, add_zero, zero_add]
  clear h300
  rcases le_or_lt p 400 with h400 | h400
  · simp (disch := (by_contra hh; linarith)) only [le_true_of, le_false_of, lt_true_of,
      lt_false_of, and_true, true_and, and_false, false_and, if_true, if_false,
      true_implies, false_implies, add_zero, zero_add]
  clear g300
  rcases lt_or_le p 401 with g400 | g400
  · simp (disch := (by_contra hh; linarith)) only [le_true_of, le_false_of, lt_true_of,
      lt_false_of, and_true, true_and, and_false, false_and, if_true, if_false,
      true_implies, false_implies, add_zero, zero_add]
  clear h400
  rcases le_or_lt p 500 with h500 | h500
  · simp (disch := (by_contra hh; linarith)) only [le_true_of, le_false_of, lt_true_of,
      lt_false_of, and_true, true_and, and_false, false_and, if_true, if_false,
      true_implies, false_implies, add_zero, zero_add]
  clear g400
  rcases lt_or_le p 501 with g500 | g500
  · simp (disch := (by_contra hh; linarith)) only [le_true_of, le_false_of, lt_true_of,
      lt_false_of, and_true, true_and, and_false, false_and, if_true, if_false,
      true_implies, false_implies, add_zero, zero_add]
  clear h500
  rcases le_or_lt p 600 with h600 | h600
  · simp (disch := (by_contra hh; linarith)) only [le_true_of, le_false_of, lt_true_of,
      lt_false_of, and_true, true_and, and_false, false_and, if_true, if_false,
      true_implies, false_implies, add_zero, zero_add]
  clear g500
  rcases lt_or_le p 601 with g600 | g600
  · simp (disch := (by_contra hh; linarith)) only [le_true_of, le_false_of, lt_true_of,
      lt_false_of, and_true, true_and, and_false, false_and, if_true, if_false,
      true_implies, false_implies, add_zero, zero_add]
  clear h600
  rcases le_or_lt p 700 with h700 | h700
  · simp (disch := (by_contra hh; linarith)) only [le_true_of, le_false_of, lt_true_of,
      lt_false_of, and_true, true_and, and_false, false_and, if_true, if_false,
      true_implies, false_implies, add_zero, zero_add]
  clear g600
  rcases lt_or_le p 701 with g700 | g700
  · simp (disch := (by_contra hh; linarith)) only [le_true_of, le_false_of, lt_true_of,
      lt_false_of, and_true, true_and, and_false, false_and, if_true, if_false,
      true_implies, false_implies, add_zero, zero_add]
  clear h700
  rcases le_or_lt p 800 with h800 | h800
  · simp (disch := (by_contra hh; linarith)) only [le_true_of, le_false_of, lt_true_of,
      lt_false_of, and_true, true_and, and_false, false_and, if_true, if_false,
      true_implies, false_implies, add_zero, zero_add]
  clear g700
  rcases lt_or_le p 801 with g800 | g800
  · simp (disch := (by_contra hh; linarith)) only [le_true_of, le_false_of, lt_true_of,
      lt_false_of, and_true, true_and, and_false, false_and, if_true, if_false,
      true_implies, false_implies, add_zero, zero_add]
  clear h800
  rcases le_or_lt p 900 with h900 | h900
  · simp (disch := (by_contra hh; linarith)) only [le_true_of, le_false_of, lt_true_of,
      lt_false_of, and_true, true_and, and_false, false_and, if_true, if_false,
      true_implies, false_implies, add_zero, zero_add]
  clear g800
  rcases lt_or_le p 901 with g900 | g900
  · simp (disch := (by_contra hh; linarith)) only [le_true_of, le_false_of, lt_true_of,
      lt_false_of, and_true, true_and, and_false, false_and, if_true, if_false,
      true_implies, false_implies, add_zero, zero_add]
  clear h900
  simp (disch := (by_contra hh; linarith)) only [le_true_of, le_false_of, lt_true_of,
    lt_false_of, and_true, true_and, and_false, false_and, if_true, if_false,
    true_implies, false_implies, add_zero, zero_add]

theorem sum_map_indicator (q : Record → Bool) (store : Store) :
    (store.map (fun r => if q r = true then 1 else 0)).sum = (store.filter q).length := by
  induction store with
  | nil => rfl
  | cons r rs ih =>
    by_cases hq : q r = true
    · simp [List.filter_cons, hq, ih]; omega
    · simp [List.filter_cons, hq, ih]

theorem sum_filter_lengths {β : Type} (P : β → Record → Bool) (bs : List β) (store : Store) :
    (bs.map (fun b => (store.filter (P b)).length)).sum
      = (store.map (fun r => (bs.map (fun b => if P b r = true then 1 else 0)).sum)).sum := by
  induction store with
  | nil => simp
  | cons r rs ih =>
    have step : ∀ b, ((r :: rs).filter (P b)).length
        = (if P b r = true then 1 else 0) + (rs.filter (P b)).length := by
      intro b
      by_cases hb : P b r = true
      · simp [List.filter_cons, hb]; omega
      · simp [List.filter_cons, hb]
    simp only [step, List.sum_map_add, ih, List.map_cons, List.sum_cons]

theorem record_hits (n : Nat) (r : Record) :
    (priceRanges.map (fun range => if (r.dateOfSale.month == n && (decide (range.min ≤ r.price) &&
        (match range.max with
          | some max => decide (r.price ≤ max)
          | none => true))) = true then 1 else 0)).sum
      = if (r.dateOfSale.month == n && coveredPrice r.price) = true then 1 else 0 := by
  by_cases hm : (r.dateOfSale.month == n) = true
  · simp only [hm, Bool.true_and]
    exact price_hits r.price
  · simp only [Bool.not_eq_true] at hm
    simp [hm]

theorem chartTotal_of_mem (store : Store) (name : String) (h : name ∈ monthNames) :
    chartTotal (priceRangeChart store (some name)).response
      = (store.filter (fun r => inMonth name r && coveredPrice r.price)).length := by
  obtain ⟨hget, hne⟩ := monthMapGet_of_mem name h
  rw [priceRangeChart_of_number store name _ hne hget (Nat.succ_ne_zero _)]
  simp only [chartTotal, List.map_map, Function.comp_def]
  rw [sum_filter_lengths (fun (range : PriceRange) (r : Record) =>
      r.dateOfSale.month == monthNames.indexOf name + 1 && (decide (range.min ≤ r.price) &&
        (match range.max with
          | some max => decide (r.price ≤ max)
          | none => true))) priceRanges store]
  simp only [record_hits]
  exact sum_map_indicator _ store

theorem coveredPrice_natCast (k : ℕ) : coveredPrice (k : ℚ) = true := by
  simp only [coveredPrice, gapStarts, List.any_cons, List.any_nil, Bool.or_false,
    Bool.and_eq_true, decide_eq_true_eq, Bool.not_eq_true', Bool.or_eq_false_iff,
    Bool.and_eq_false_imp, decide_eq_false_iff_not, not_lt, Nat.cast_nonneg, true_and]
  refine ⟨?_, ?_, ?_, ?_, ?_, ?_, ?_, ?_, ?_⟩ <;>
  · intro hlt
    have h1 : (100 : ℚ) = ((100 : ℕ) : ℚ) := by norm_num
    norm_num at hlt ⊢
    exact_mod_cast hlt

/-- C3 (as amended): for a recognized month name the ten counts add up to the number of
records of that month whose price is not negative and not strictly between `100 k` and
`100 k + 1` (`k = 1..9`); such a record is counted in exactly one bucket, any other
record of the month in none, and no record twice.  In particular the counts add up to
the number of records of the month when all their prices are whole numbers. -/
theorem chart_total_covered (store : Store) (name : String) (h : name ∈ monthNames) :
    chartTotal (priceRangeChart store (some name)).response
        = (store.filter (fun r => inMonth name r && coveredPrice r.price)).length
    ∧ (∀ r : Record, chartTotal (priceRangeChart [r] (some name)).response
        = if (inMonth name r && coveredPrice r.price) = true then 1 else 0)
    ∧ chartTotal (priceRangeChart store (some name)).response
        ≤ (store.filter (inMonth name)).length
    ∧ ((∀ r ∈ store, inMonth name r = true → ∃ k : ℕ, r.price = k) →
        chartTotal (priceRangeChart store (some name)).response
          = (store.filter (inMonth name)).length) := by
  refine ⟨chartTotal_of_mem store name h, ?_, ?_, ?_⟩
  · intro r
    rw [chartTotal_of_mem [r] name h]
    by_cases hq : (inMonth name r && coveredPrice r.price) = true
    · simp [List.filter_cons, hq]
    · simp [List.filter_cons, hq]
  · rw [chartTotal_of_mem store name h]
    simp only [← List.countP_eq_length_filter]
    exact List.countP_mono_left (fun r _ hr => by
      simp only [Bool.and_eq_true] at hr
      exact hr.1)
  · intro hall
    rw [chartTotal_of_mem store name h]
    congr 1
    apply List.filter_congr
    intro r hr
    by_cases hm : inMonth name r = true
    · obtain ⟨k, hk⟩ := hall r hr hm
      simp [hm, hk, coveredPrice_natCast]
    · simp [hm]

/-- C3 fails as stated: a January record priced 100.5 is counted in no bucket, so the
ten counts add up to 0 while the month holds one record. -/
theorem chart_total_gap_counterexample :
    (priceRangeChart [sampleRecord "1" "mug" (201 / 2) true 1] (some "January")).response
      = .ok [⟨⟨0, some 100⟩, 0⟩, ⟨⟨101, some 200⟩, 0⟩, ⟨⟨201, some 300⟩, 0⟩,
          ⟨⟨301, some 400⟩, 0⟩, ⟨⟨401, some 500⟩, 0⟩, ⟨⟨501, some 600⟩, 0⟩,
          ⟨⟨601, some 700⟩, 0⟩, ⟨⟨701, some 800⟩, 0⟩, ⟨⟨801, some 900⟩, 0⟩,
          ⟨⟨901, none⟩, 0⟩]
    ∧ ([sampleRecord "1" "mug" (201 / 2) true 1].filter (inMonth "January")).length = 1 := by
  decide!

theorem statistics_recognized_month_witness :
    "January" ∈ monthNames ∧
      (statistics sampleStore (some "January")).response = .ok 1150 2 1 :=
  ⟨by decide, by
    rw [(statistics_recognized_month sampleStore "January" (by decide)).1]
    decide!⟩

theorem priceRangeChart_recognized_month_witness :
    "March" ∈ monthNames ∧
      (priceRangeChart sampleStore (some "March")).response = .ok
        [⟨⟨0, some 100⟩, 1⟩, ⟨⟨101, some 200⟩, 0⟩, ⟨⟨201, some 300⟩, 0⟩,
         ⟨⟨301, some 400⟩, 0⟩, ⟨⟨401, some 500⟩, 0⟩, ⟨⟨501, some 600⟩, 0⟩,
         ⟨⟨601, some 700⟩, 0⟩, ⟨⟨701, some 800⟩, 0⟩, ⟨⟨801, some 900⟩, 0⟩,
         ⟨⟨901, none⟩, 0⟩] :=
  ⟨by decide, by
    rw [priceRangeChart_recognized_month sampleStore "March" (by decide)]
    decide!⟩

theorem chart_total_covered_witness :
    "March" ∈ monthNames ∧
      chartTotal (priceRangeChart sampleStore (some "March")).response = 1 ∧
      (sampleStore.filter (inMonth "March")).length = 2 :=
  ⟨by decide, by
    rw [(chart_total_covered sampleStore "March" (by decide)).1]
    decide!, by decide!⟩

/-! ## Month validation -/

/-- Statistics and chart requests without a month, with the empty month, or with a
month that names no property of `monthMap` at all are answered with the validation
failure, and no store operation is issued. -/
theorem month_rejected_of_undefined (store : Store) (month : Option String)
    (h : month = none ∨ month = some "" ∨ monthMapGet (month.getD "") = .undefined) :
    statistics store month = ⟨[], .badRequest⟩ ∧
      priceRangeChart store month = ⟨[], .badRequest⟩ := by
  rcases h with rfl | rfl | h
  · exact ⟨rfl, rfl⟩
  · exact ⟨rfl, rfl⟩
  · simp [statistics, priceRangeChart, h, JSValue.truthy]

/-- C4 fails on the code: `month = "constructor"` is none of the twelve month names,
yet `monthMap["constructor"]` is the inherited `Object` function, which is truthy;
both handlers pass the validation, issue their store operations and do not answer
with the validation failure. -/
theorem month_constructor_not_rejected (store : Store) :
    "constructor" ∉ monthNames
    ∧ (statistics store (some "constructor")).calls
        = [.aggregate, .countDocuments, .countDocuments]
    ∧ (statistics store (some "constructor")).response = .failure
    ∧ (priceRangeChart store (some "constructor")).calls.length = 10
    ∧ (priceRangeChart store (some "constructor")).response = .failure := by
  have hget : monthMapGet "constructor" = .function := by decide
  refine ⟨by decide, ?_, ?_, ?_, ?_⟩
  · simp [statistics, monthTruthy, hget, JSValue.truthy]
  · simp [statistics, monthTruthy, hget, JSValue.truthy, aggregate, Stage.valid, monthEq]
  · simp [priceRangeChart, monthTruthy, hget, JSValue.truthy, priceRanges]
  · simp [priceRangeChart, monthTruthy, hget, JSValue.truthy, priceRanges, rangeFilter,
      exprAnd, monthEq, monthEqCast, castMonthOperand, Filter.and, countDocuments,
      promiseAll, consResult]

/-! ## Seeding -/

/-- C9: on a collection with at least one record the seeding route fetches nothing,
inserts nothing, leaves the collection as it is and answers "already initialized"; it
fetches and inserts only when the collection is empty, where a served dataset becomes
the collection and the answer is success; a second call after seeding a non-empty
dataset changes nothing. -/
theorem initializeDatabase_idempotent (store : Store) (remote remote2 : Option (List Record)) :
    (store ≠ [] → initializeDatabase store remote = ⟨store, [], .alreadyInitialized⟩)
    ∧ ((initializeDatabase store remote).effects ≠ [] → store = [])
    ∧ ((initializeDatabase store remote).response = .initialized → store = [])
    ∧ (∀ dataset : List Record,
        initializeDatabase [] (some dataset)
          = ⟨dataset, [.fetch, .insertMany dataset], .initialized⟩)
    ∧ (∀ dataset : List Record, dataset ≠ [] →
        initializeDatabase (initializeDatabase [] (some dataset)).store remote2
          = ⟨(initializeDatabase [] (some dataset)).store, [], .alreadyInitialized⟩) := by
  have nonempty : ∀ (st : Store) (rem : Option (List Record)), st ≠ [] →
      initializeDatabase st rem = ⟨st, [], .alreadyInitialized⟩ := by
    intro st rem hst
    cases st with
    | nil => exact absurd rfl hst
    | cons r rs =>
      simp [initializeDatabase, countDocuments, Filter.all]
  have empty : ∀ dataset : List Record, initializeDatabase [] (some dataset)
      = ⟨dataset, [.fetch, .insertMany dataset], .initialized⟩ := by
    intro dataset
    simp [initializeDatabase, countDocuments, Filter.all]
  refine ⟨nonempty store remote, ?_, ?_, empty, ?_⟩
  · intro heff
    by_contra hst
    rw [nonempty store remote hst] at heff
    exact heff rfl
  · intro hresp
    by_contra hst
    rw [nonempty store remote hst] at hresp
    cases hresp
  · intro dataset hds
    rw [empty dataset]
    exact nonempty dataset remote2 hds

/-! ## Listing -/

theorem transactions_ok_iff (E : RegExpEngine) (store : Store) (req : ListingRequest)
    (docs : List Doc) (total : Nat) (pg pp : Option Int) :
    (transactions E store req).response = .ok docs total pg pp ↔
      ∃ query, searchQuery E (req.search.getD "") = some query
        ∧ aggregate store (aggregationPipeline req) = some docs
        ∧ countDocuments store query = some total
        ∧ pg = req.pageNumber ∧ pp = req.perPageNumber := by
  unfold transactions
  cases hq : searchQuery E (req.search.getD "") with
  | none => simp
  | some query =>
    cases ha : aggregate store (aggregationPipeline req) with
    | none => simp
    | some ds =>
      cases hc : countDocuments store query with
      | none => simp [hc]
      | some t =>
        simp only [hc, ListingResponse.ok.injEq, Option.some.injEq, exists_eq_left']
        constructor
        · rintro ⟨rfl, rfl, rfl, rfl⟩
          exact ⟨rfl, rfl, rfl, rfl⟩
        · rintro ⟨rfl, rfl, rfl, rfl⟩
          exact ⟨rfl, rfl, rfl, rfl⟩

theorem any_orClauses (E : RegExpEngine) (search : String) (r : Record) :
    (orClauses E search).any (fun c => c r)
      = (E.test search r.title || E.test search r.description
          || priceClause (parseFloat search) r) := by
  unfold orClauses
  cases hp : parseFloat search with
  | nan => simp [JSNumber.isNaN, priceClause]
  | infinity b => simp [JSNumber.isNaN, priceClause]
  | finite q => simp [JSNumber.isNaN, Bool.or_assoc]

theorem countDocuments_searchQuery (E : RegExpEngine) (store : Store) (search : String)
    (query : Filter) (total : Nat) (hq : searchQuery E search = some query)
    (hc : countDocuments store query = some total) :
    total = (store.filter (matchesSearch E search)).length := by
  unfold searchQuery at hq
  by_cases hs : search = ""
  · subst hs
    simp only [bne_self_eq_false, Bool.false_eq_true, if_false, Option.some.injEq] at hq
    subst hq
    simp only [countDocuments, Filter.all, Option.map_some', Option.some.injEq] at hc
    subst hc
    congr 1
  · have hne : (search != "") = true := by simpa using hs
    rw [if_pos hne] at hq
    split_ifs at hq
    simp only [Option.some.injEq] at hq
    subst hq
    simp only [countDocuments, Option.map_some', Option.some.injEq] at hc
    subst hc
    congr 1
    apply List.filter_congr
    intro r _
    rw [any_orClauses]
    simp [matchesSearch, hs]

theorem run_skip_limit (recs : List Record) (p n : Int) :
    (Stage.limit (some n)).run ((Stage.skip (some ((p - 1) * n))).run (recs.map Doc.record))
      = pageOf recs p n := by
  simp [Stage.run, pageOf, List.map_drop, List.map_take]

theorem page_valid_of (p n : Int) (h0 : 0 ≤ (p - 1) * n) (h1 : 1 ≤ n) : 1 ≤ p := by
  by_contra hp
  have : p - 1 < 0 := by omega
  nlinarith

theorem aggregate_pipeline_some (store : Store) (req : ListingRequest) (docs : List Doc)
    (h : aggregate store (aggregationPipeline req) = some docs) :
    ∃ p n : Int, req.pageNumber = some p ∧ req.perPageNumber = some n ∧ 1 ≤ p ∧ 1 ≤ n ∧
      ((monthTruthy req.month && (monthMapGet (req.month.getD "")).truthy) = false →
        docs = pageOf store p n) ∧
      (∀ k : Nat, (monthTruthy req.month && (monthMapGet (req.month.getD "")).truthy) = true →
        monthMapGet (req.month.getD "") = .number k →
        docs = pageOf (store.filter (fun r => r.dateOfSale.month == k)) p n) := by
  unfold aggregate at h
  split_ifs at h with hv
  simp only [Option.some.injEq] at h
  cases hp : req.pageNumber with
  | none => simp [aggregationPipeline, hp, skipCount, Stage.valid] at hv
  | some p =>
    cases hn : req.perPageNumber with
    | none => simp [aggregationPipeline, hp, hn, skipCount, Stage.valid] at hv
    | some n =>
      refine ⟨p, n, rfl, rfl, ?_⟩
      by_cases hm : (monthTruthy req.month && (monthMapGet (req.month.getD "")).truthy) = true
      · simp only [aggregationPipeline, hm, if_true, hp, hn, skipCount, List.singleton_append,
          List.all_cons, List.all_nil, Stage.valid, Bool.and_true, Bool.and_eq_true,
          decide_eq_true_eq] at hv h
        obtain ⟨_, ⟨h0, _⟩, h1, _⟩ := hv
        refine ⟨page_valid_of p n h0 h1, h1, fun hf => by simp [hm] at hf, ?_⟩
        intro k _ hk
        rw [hk] at h
        simp only [monthEq, List.foldl_cons, List.foldl_nil, matchExpr_run_records,
          run_skip_limit] at h
        exact h.symm
      · simp only [Bool.not_eq_true] at hm
        simp only [aggregationPipeline, hm, Bool.false_eq_true, if_false, hp, hn, skipCount,
          List.nil_append, List.all_cons, List.all_nil, Stage.valid, Bool.and_true,
          Bool.and_eq_true, decide_eq_true_eq, List.foldl_cons, List.foldl_nil,
          run_skip_limit] at hv h
        obtain ⟨⟨h0, _⟩, h1, _⟩ := hv
        exact ⟨page_valid_of p n h0 h1, h1, fun _ => h.symm, fun k hf => absurd hf (by simp [hm])⟩

theorem aggregate_pipeline_valid (store : Store) (req : ListingRequest) (p n : Int)
    (hp : req.pageNumber = some p) (hn : req.perPageNumber = some n)
    (hp1 : 1 ≤ p) (hn1 : 1 ≤ n) (hskip : (p - 1) * n < 2 ^ 63) (hlim : n < 2 ^ 63)
    (hm : monthMapGet (req.month.getD "") ≠ .function) :
    (aggregate store (aggregationPipeline req)).isSome = true := by
  have h0 : 0 ≤ (p - 1) * n := mul_nonneg (by omega) (by omega)
  norm_num at hskip hlim
  have hstage : (monthEq (monthMapGet (req.month.getD ""))).isSome = true := by
    cases hg : monthMapGet (req.month.getD "") with
    | function => exact absurd hg hm
    | undefined => rfl
    | number k => rfl
    | object => rfl
  unfold aggregate
  rw [if_pos]
  · rfl
  · by_cases hacc : (monthTruthy req.month && (monthMapGet (req.month.getD "")).truthy) = true
    · simp [aggregationPipeline, hacc, hp, hn, skipCount, Stage.valid, h0, hskip, hn1, hlim,
        hstage]
    · simp only [Bool.not_eq_true] at hacc
      simp [aggregationPipeline, hacc, hp, hn, skipCount, Stage.valid, h0, hskip, hn1, hlim]

/-- C5: the total returned by the listing is the number of records of the whole
collection that match the search; the month parameter does not influence it, and with
an empty or absent search it is the number of all records.  A total is returned
whenever the search is empty or compiles, page and page size are integers at least 1
within the store's range and the month does not name an inherited method. -/
theorem listing_total_counts_search (E : RegExpEngine) (store : Store)
    (req : ListingRequest) :
    (∀ (docs : List Doc) (total : Nat) (pg pp : Option Int),
      (transactions E store req).response = .ok docs total pg pp →
        total = (store.filter (matchesSearch E (req.search.getD ""))).length
        ∧ (∀ (month' : Option String) (docs' : List Doc) (total' : Nat)
            (pg' pp' : Option Int),
            (transactions E store { req with month := month' }).response
              = .ok docs' total' pg' pp' → total' = total)
        ∧ ((req.search = none ∨ req.search = some "") → total = store.length))
    ∧ (∀ p n : Int, (req.search.getD "" = "" ∨ E.accepts (req.search.getD "") = true) →
        req.pageNumber = some p → req.perPageNumber = some n → 1 ≤ p → 1 ≤ n →
        (p - 1) * n < 2 ^ 63 → n < 2 ^ 63 →
        monthMapGet (req.month.getD "") ≠ .function →
        ∃ docs, (transactions E store req).response
          = .ok docs (store.filter (matchesSearch E (req.search.getD ""))).length
              (some p) (some n)) := by
  have key : ∀ (rq : ListingRequest) (ds : List Doc) (t : Nat) (a b : Option Int),
      (transactions E store rq).response = .ok ds t a b →
      t = (store.filter (matchesSearch E (rq.search.getD ""))).length := by
    intro rq ds t a b hr
    obtain ⟨query, hq, _, hc, _, _⟩ := (transactions_ok_iff E store rq ds t a b).1 hr
    exact countDocuments_searchQuery E store _ query t hq hc
  refine ⟨?_, ?_⟩
  · intro docs total pg pp h
    refine ⟨key req docs total pg pp h, ?_, ?_⟩
    · intro month' docs' total' pg' pp' h'
      rw [key _ docs' total' pg' pp' h', key req docs total pg pp h]
    · intro hs
      rw [key req docs total pg pp h]
      have he : req.search.getD "" = "" := by
        rcases hs with hs | hs <;> simp [hs]
      rw [he]
      have hall : matchesSearch E "" = fun _ => true := by
        funext r
        simp [matchesSearch]
      rw [hall, List.filter_true]
  · intro p n hs hp hn hp1 hn1 hskip hlim hm
    have hagg := aggregate_pipeline_valid store req p n hp hn hp1 hn1 hskip hlim hm
    obtain ⟨docs, hdocs⟩ := Option.isSome_iff_exists.1 hagg
    have hquery : ∃ f, searchQuery E (req.search.getD "") = some (some f) := by
      unfold searchQuery
      by_cases he : req.search.getD "" = ""
      · exact ⟨fun _ => true, by simp [he, Filter.all]⟩
      · have hacc : E.accepts (req.search.getD "") = true := hs.resolve_left he
        exact ⟨fun r => (orClauses E (req.search.getD "")).any (fun c => c r),
          by simp [he, hacc]⟩
    obtain ⟨f, hf⟩ := hquery
    have hresp : (transactions E store req).response
        = .ok docs (store.filter f).length (some p) (some n) :=
      (transactions_ok_iff E store req docs _ _ _).2
        ⟨some f, hf, hdocs, rfl, hp.symm, hn.symm⟩
    refine ⟨docs, ?_⟩
    rw [← key req docs _ _ _ hresp]
    exact hresp

/-- Two listing requests that differ only in their search strings and both succeed
return the same transactions: page and page size are integers at least 1 and the page
consists of the records of the month for a month name, of all records when the month
is absent, empty or names no property of `monthMap`, in store order, with
`(page - 1) * perPage` skipped and at most `perPage` kept. -/
theorem listing_page_ignores_search (E : RegExpEngine) (store : Store)
    (month page perPage s1 s2 : Option String)
    (docs1 docs2 : List Doc) (total1 total2 : Nat) (pg1 pp1 pg2 pp2 : Option Int)
    (h1 : (transactions E store ⟨s1, page, perPage, month⟩).response
      = .ok docs1 total1 pg1 pp1)
    (h2 : (transactions E store ⟨s2, page, perPage, month⟩).response
      = .ok docs2 total2 pg2 pp2) :
    docs1 = docs2 ∧
    ∃ p n : Int, parseInt (page.getD "1") = some p ∧ parseInt (perPage.getD "10") = some n
      ∧ 1 ≤ p ∧ 1 ≤ n
      ∧ (∀ name ∈ monthNames, month = some name →
          docs1 = pageOf (store.filter (inMonth name)) p n)
      ∧ (month = none ∨ month = some "" ∨ monthMapGet (month.getD "") = .undefined →
          docs1 = pageOf store p n) := by
  obtain ⟨_, _, ha1, _, _, _⟩ := (transactions_ok_iff E store _ docs1 total1 pg1 pp1).1 h1
  obtain ⟨_, _, ha2, _, _, _⟩ := (transactions_ok_iff E store _ docs2 total2 pg2 pp2).1 h2
  have hpipe : aggregationPipeline ⟨s1, page, perPage, month⟩
      = aggregationPipeline ⟨s2, page, perPage, month⟩ := rfl
  refine ⟨?_, ?_⟩
  · rw [hpipe, ha2] at ha1
    exact (Option.some.inj ha1).symm
  · obtain ⟨p, n, hp, hn, hp1, hn1, hnone, hnum⟩ := aggregate_pipeline_some store _ docs1 ha1
    refine ⟨p, n, hp, hn, hp1, hn1, ?_, ?_⟩
    · intro name hname hm
      subst hm
      obtain ⟨hget, hne⟩ := monthMapGet_of_mem name hname
      have hacc : (monthTruthy (some name) && (monthMapGet ((some name).getD "")).truthy)
          = true := by
        simp [monthTruthy, hne, hget, JSValue.truthy]
      exact hnum _ hacc hget
    · intro hm
      apply hnone
      rcases hm with hm | hm | hm
      · subst hm; rfl
      · subst hm; rfl
      · show (monthTruthy month && (monthMapGet (month.getD "")).truthy) = false
        rw [hm]
        simp [JSValue.truthy]

/-- C7 fails on the code: with `search = "lamp"` only one record of the example
collection matches the search (and `total` is 1), yet the page holds all five records,
because the `query` built from the search never enters the aggregation pipeline. -/
theorem listing_page_not_filtered_by_search :
    (transactions fragmentEngine sampleStore ⟨some "lamp", none, none, none⟩).response
      = .ok (sampleStore.map Doc.record) 1 (some 1) (some 10)
    ∧ sampleStore.filter (matchesSearch fragmentEngine "lamp")
      = [sampleRecord "2" "Desk lamp" 150 false 1] := by
  decide!

/-- A month that names no property of `monthMap` at all, like an empty month, leaves
the listing as it is without a month. -/
theorem transactions_unknown_month (E : RegExpEngine) (store : Store)
    (search page perPage month : Option String)
    (hm : month = some "" ∨ monthMapGet (month.getD "") = .undefined) :
    transactions E store ⟨search, page, perPage, month⟩
      = transactions E store ⟨search, page, perPage, none⟩ := by
  have hpipe : aggregationPipeline ⟨search, page, perPage, month⟩
      = aggregationPipeline ⟨search, page, perPage, none⟩ := by
    rcases hm with hm | hm
    · subst hm; rfl
    · simp [aggregationPipeline, hm, JSValue.truthy, monthTruthy,
        ListingRequest.pageNumber, ListingRequest.perPageNumber]
  simp only [transactions, hpipe]
  rfl

/-- C8 fails on the code: `month = "constructor"` is none of the twelve month names, yet
`monthMap["constructor"]` is truthy, a `$match` stage on it enters the pipeline and
the request fails, while the same request without a month succeeds. -/
theorem listing_month_constructor_differs :
    "constructor" ∉ monthNames
    ∧ (∀ (E : RegExpEngine) (store : Store) (search page perPage : Option String),
        (transactions E store ⟨search, page, perPage, some "constructor"⟩).response
          = .failure)
    ∧ (transactions fragmentEngine sampleStore ⟨none, none, none, none⟩).response
        = .ok (sampleStore.map Doc.record) 5 (some 1) (some 10) := by
  refine ⟨by decide, ?_, by decide!⟩
  intro E store search page perPage
  have hget : monthMapGet "constructor" = .function := by decide
  have hagg : aggregate store
      (aggregationPipeline ⟨search, page, perPage, some "constructor"⟩) = none := by
    simp [aggregate, aggregationPipeline, monthTruthy, hget, JSValue.truthy, monthEq,
      Stage.valid]
  unfold transactions
  cases searchQuery E (search.getD "") with
  | none => rfl
  | some query => simp [hagg]

theorem aggregate_proto_month (store : Store) (search page perPage : Option String) :
    aggregate store (aggregationPipeline ⟨search, page, perPage, some "__proto__"⟩) = none
    ∨ aggregate store (aggregationPipeline ⟨search, page, perPage, some "__proto__"⟩)
        = some [] := by
  have hget : monthMapGet "__proto__" = .object := by decide
  have hpipe : aggregationPipeline ⟨search, page, perPage, some "__proto__"⟩
      = [Stage.matchExpr (some (fun _ => false)),
          .skip (skipCount (parseInt (page.getD "1")) (parseInt (perPage.getD "10"))),
          .limit (parseInt (perPage.getD "10"))] := by
    simp [aggregationPipeline, monthTruthy, hget, JSValue.truthy, monthEq,
      ListingRequest.pageNumber, ListingRequest.perPageNumber]
  rw [hpipe]
  unfold aggregate
  split_ifs
  · right
    have hempty : (Stage.matchExpr (some (fun _ => false))).run (store.map Doc.record) = [] := by
      rw [matchExpr_run_records]
      simp
    simp only [List.foldl_cons, List.foldl_nil]
    rw [hempty]
    simp [Stage.run]
  · left
    rfl

/-- C10 fails on the code: `month = "__proto__"` is none of the twelve month names, yet
`monthMap["__proto__"]` is the prototype object, which is truthy, so a `$match` stage
that no record satisfies enters the pipeline: whenever the listing succeeds its page is
empty, for every search, where the page of all records is claimed.  On the example
collection the request succeeds with an empty page while the first page of all
records holds five. -/
theorem listing_month_proto_empty_page :
    "__proto__" ∉ monthNames
    ∧ (∀ (E : RegExpEngine) (store : Store) (search page perPage : Option String),
        (transactions E store ⟨search, page, perPage, some "__proto__"⟩).response = .failure
        ∨ ∃ (total : Nat) (pg pp : Option Int),
            (transactions E store ⟨search, page, perPage, some "__proto__"⟩).response
              = .ok [] total pg pp)
    ∧ (transactions fragmentEngine sampleStore ⟨none, none, none, some "__proto__"⟩).response
        = .ok [] 5 (some 1) (some 10)
    ∧ (transactions fragmentEngine sampleStore
        ⟨some "lamp", none, none, some "__proto__"⟩).response = .ok [] 1 (some 1) (some 10)
    ∧ pageOf sampleStore 1 10 = sampleStore.map Doc.record
    ∧ (transactions fragmentEngine sampleStore ⟨none, none, none, none⟩).response
        = .ok (sampleStore.map Doc.record) 5 (some 1) (some 10) := by
  refine ⟨by decide, ?_, by decide!, by decide!, by decide!, by decide!⟩
  intro E store search page perPage
  cases hq : searchQuery E (search.getD "") with
  | none =>
    left
    simp [transactions, hq]
  | some query =>
    rcases aggregate_proto_month store search page perPage with hagg | hagg
    · left
      simp [transactions, hq, hagg]
    · cases hc : countDocuments store query with
      | none =>
        left
        simp [transactions, hq, hagg, hc]
      | some total =>
        right
        exact ⟨total, _, _, (transactions_ok_iff E store _ [] total _ _).2
          ⟨query, hq, hagg, hc, rfl, rfl⟩⟩

/-! ## Search filter -/

theorem literal_not_dot (c : Char) (h : isLiteralChar c = true) : c ≠ '.' := by
  rintro rfl
  revert h
  decide

theorem literal_inFragment (c : Char) (h : isLiteralChar c = true) : inFragment c = true := by
  unfold inFragment
  unfold isLiteralChar at h
  simp [h]

theorem matchHere_literal (s t : List Char) (hs : s.all isLiteralChar = true) :
    matchHere (atomsOf s) t = true ↔ s.map Char.toLower <+: t.map Char.toLower := by
  induction s generalizing t with
  | nil => simp [atomsOf, matchHere]
  | cons c cs ih =>
    simp only [List.all_cons, Bool.and_eq_true] at hs
    have hc : c ≠ '.' := literal_not_dot c hs.1
    cases t with
    | nil => simp [atomsOf, matchHere]
    | cons d ds =>
      have ih' := ih ds hs.2
      simp only [atomsOf] at ih'
      simp only [atomsOf, List.map_cons, hc, if_false, matchHere, Atom.matchesChar,
        Bool.and_eq_true, beq_iff_eq, List.cons_prefix_cons, ih']

theorem matchAnywhere_literal (s t : List Char) (hs : s.all isLiteralChar = true) :
    matchAnywhere (atomsOf s) t = true ↔ s.map Char.toLower <:+: t.map Char.toLower := by
  induction t with
  | nil =>
    simp only [matchAnywhere, matchHere_literal s [] hs, List.map_nil, List.prefix_nil,
      List.infix_nil]
  | cons d ds ih =>
    simp only [matchAnywhere, Bool.or_eq_true, matchHere_literal s (d :: ds) hs, ih,
      List.map_cons, List.infix_cons_iff]

theorem priceClause_iff (v : JSNumber) (r : Record) :
    priceClause v r = true ↔ ∃ q, v = .finite q ∧ r.price = q := by
  cases v with
  | nan => simp [priceClause]
  | infinity b => simp [priceClause]
  | finite q => simp [priceClause]

theorem satisfiesSearch_of_accepted (E : RegExpEngine) (s : String) (r : Record)
    (hne : s ≠ "") (hacc : E.accepts s = true) :
    satisfiesSearch E s r
      = (E.test s r.title || E.test s r.description || priceClause (parseFloat s) r) := by
  have hb : (s != "") = true := by simpa using hne
  simp only [satisfiesSearch, searchQuery, hb, if_true, hacc, countDocuments,
    Option.map_some']
  rw [← any_orClauses]
  by_cases h : (orClauses E s).any (fun c => c r) = true
  · simp [List.filter_cons, h]
  · simp [List.filter_cons, h]

/-- C6 (as amended): for a non-empty search made only of characters that stand for
themselves in a pattern, a record satisfies the search filter exactly when the search
occurs in its title or in its description, ignoring the case of ASCII letters, or
`parseFloat` reads a number at the start of the search and the price equals it; the
filter has the price clause exactly when `parseFloat` does not give `NaN`; a record
priced 25 satisfies the filter for the search "25" through the price clause. -/
theorem search_filter_literal (s : String) (r : Record) (hne : s ≠ "")
    (hlit : s.toList.all isLiteralChar = true) :
    (satisfiesSearch fragmentEngine s r = true ↔
      containsIgnoringCase s r.title ∨ containsIgnoringCase s r.description ∨
        ∃ q, parseFloat s = .finite q ∧ r.price = q)
    ∧ ((orClauses fragmentEngine s).length = if (parseFloat s).isNaN = true then 2 else 3)
    ∧ (∀ r25 : Record, r25.price = 25 →
        priceClause (parseFloat "25") r25 = true ∧
          satisfiesSearch fragmentEngine "25" r25 = true) := by
  have hacc : ∀ s' : String, s'.toList.all isLiteralChar = true →
      fragmentEngine.accepts s' = true := by
    intro s' hs'
    simp only [fragmentEngine, List.all_eq_true] at hs' ⊢
    exact fun c hc => literal_inFragment c (hs' c hc)
  have h25 : parseFloat "25" = .finite 25 := by decide!
  refine ⟨?_, ?_, ?_⟩
  · rw [satisfiesSearch_of_accepted fragmentEngine s r hne (hacc s hlit)]
    simp only [Bool.or_eq_true, priceClause_iff, fragmentEngine, containsIgnoringCase,
      matchAnywhere_literal _ _ hlit, or_assoc]
  · unfold orClauses
    cases parseFloat s <;> simp [JSNumber.isNaN]
  · intro r25 hp
    have hc : priceClause (parseFloat "25") r25 = true := by
      rw [h25]
      simp [priceClause, hp]
    refine ⟨hc, ?_⟩
    rw [satisfiesSearch_of_accepted fragmentEngine "25" r25 (by decide)
      (hacc "25" (by decide)), hc]
    simp

/-- C6 fails as stated: the search is compiled as a pattern, so the search "." matches
the title "Laptop" although "." occurs neither in the title nor in the description and
is not a number. -/
theorem search_filter_dot_counterexample :
    satisfiesSearch fragmentEngine "." (sampleRecord "3" "Laptop" 950 true 1) = true
    ∧ ¬ (containsIgnoringCase "." (sampleRecord "3" "Laptop" 950 true 1).title
      ∨ containsIgnoringCase "." (sampleRecord "3" "Laptop" 950 true 1).description
      ∨ ∃ q, parseFloat "." = .finite q
          ∧ (sampleRecord "3" "Laptop" 950 true 1).price = q) := by
  refine ⟨by decide!, ?_⟩
  have hp : parseFloat "." = .nan := by decide!
  rintro (h | h | ⟨q, hq, _⟩)
  · revert h
    decide
  · revert h
    decide
  · rw [hp] at hq
    cases hq

theorem search_filter_literal_witness :
    "lamp" ≠ "" ∧ "lamp".toList.all isLiteralChar = true ∧
      satisfiesSearch fragmentEngine "lamp" (sampleRecord "2" "Desk Lamp" 150 false 1)
        = true :=
  ⟨by decide, by decide,
    ((search_filter_literal "lamp" (sampleRecord "2" "Desk Lamp" 150 false 1)
      (by decide) (by decide)).1).2 (Or.inl (by decide))⟩

theorem listing_total_counts_search_witness :
    (transactions fragmentEngine sampleStore ⟨some "a", none, none, some "March"⟩).response
      = .ok [.record (sampleRecord "4" "Mouse pad" 25 true 3),
          .record (sampleRecord "5" "Backpack" (201 / 2) false 3)] 4 (some 1) (some 10)
    ∧ 4 = (sampleStore.filter (matchesSearch fragmentEngine "a")).length :=
  ⟨by decide!,
    ((listing_total_counts_search fragmentEngine sampleStore
      ⟨some "a", none, none, some "March"⟩).1
        [.record (sampleRecord "4" "Mouse pad" 25 true 3),
          .record (sampleRecord "5" "Backpack" (201 / 2) false 3)] 4 (some 1) (some 10)
        (by decide!)).1⟩

theorem listing_page_ignores_search_example :
    (transactions fragmentEngine sampleStore
        ⟨some "lamp", some "2", some "2", some "January"⟩).response
      = .ok [.record (sampleRecord "3" "Laptop" 950 true 1)] 1 (some 2) (some 2)
    ∧ (transactions fragmentEngine sampleStore
        ⟨none, some "2", some "2", some "January"⟩).response
      = .ok [.record (sampleRecord "3" "Laptop" 950 true 1)] 5 (some 2) (some 2)
    ∧ ∃ p n : Int, parseInt "2" = some p ∧ parseInt "2" = some n ∧ 1 ≤ p ∧ 1 ≤ n
      ∧ [Doc.record (sampleRecord "3" "Laptop" 950 true 1)]
          = pageOf (sampleStore.filter (inMonth "January")) p n := by
  refine ⟨by decide!, by decide!, ?_⟩
  obtain ⟨_, p, n, hp, hn, hp1, hn1, hmonth, _⟩ :=
    listing_page_ignores_search fragmentEngine sampleStore (some "January") (some "2")
      (some "2") (some "lamp") none [.record (sampleRecord "3" "Laptop" 950 true 1)]
      [.record (sampleRecord "3" "Laptop" 950 true 1)] 1 5 (some 2) (some 2) (some 2) (some 2)
      (by decide!) (by decide!)
  exact ⟨p, n, hp, hn, hp1, hn1, hmonth "January" (by decide) rfl⟩

theorem initializeDatabase_idempotent_witness :
    sampleStore ≠ [] ∧
      initializeDatabase sampleStore none = ⟨sampleStore, [], .alreadyInitialized⟩ :=
  ⟨by simp [sampleStore],
    (initializeDatabase_idempotent sampleStore none none).1 (by simp [sampleStore])⟩

end Roxiler
